import Mathlib

/-!
Verification of the evm-wallet-django core against its specification.

The development shallowly embeds the repository's Python code in Lean:

* Django Decimal(36,18) amounts (exact fixed-point decimals) are embedded as
  rationals; the ledger methods only add, subtract and compare, which the
  rationals model exactly.
* a mutating model method that may raise ValidationError is embedded as a
  function returning the post-state of the record paired with an optional
  error message; the Python methods perform all checks before any mutation,
  so a raised error leaves the record unchanged.
* the user table is embedded as a list of user records plus a fresh-id
  counter; Django queryset primitives (filter/first/get/exists/save,
  get_or_create) become list operations on that state.
* functions of the repository that can raise an uncaught exception are
  embedded with Except, the error carrying the exception message.
* the cryptographic primitives called by the login views (hashlib.sha256,
  hmac with sha256) are external library collaborators; they are taken as
  opaque function parameters, and the theorems are about how the views use
  them (check-string construction, key derivation shape, expiry window).
-/

/-! ## Balance ledger: wallet.models.TokenBalance -/

/-- State of wallet.models.TokenBalance: the two Decimal(36,18) columns
that the ledger methods read and write. -/
structure TokenBalance where
  balance : ℚ
  frozen_balance : ℚ
deriving DecidableEq

/-- TokenBalance.get_available_balance: balance - frozen_balance. -/
def TokenBalance.get_available_balance (s : TokenBalance) : ℚ :=
  s.balance - s.frozen_balance

/-- TokenBalance.deposit: raises unless amount > 0, else balance += amount. -/
def TokenBalance.deposit (s : TokenBalance) (amount : ℚ) :
    TokenBalance × Option String :=
  if amount ≤ 0 then (s, some "Deposit amount must be positive")
  else ({ s with balance := s.balance + amount }, none)

/-- TokenBalance.withdraw: raises unless amount > 0 and amount is at most the
available balance, else balance -= amount. -/
def TokenBalance.withdraw (s : TokenBalance) (amount : ℚ) :
    TokenBalance × Option String :=
  if amount ≤ 0 then (s, some "Withdraw amount must be positive")
  else if amount > s.get_available_balance then (s, some "Insufficient balance")
  else ({ s with balance := s.balance - amount }, none)

/-- TokenBalance.freeze: raises unless amount > 0 and amount is at most the
available balance, else frozen_balance += amount. -/
def TokenBalance.freeze (s : TokenBalance) (amount : ℚ) :
    TokenBalance × Option String :=
  if amount ≤ 0 then (s, some "Freeze amount must be positive")
  else if amount > s.get_available_balance then
    (s, some "Insufficient available balance")
  else ({ s with frozen_balance := s.frozen_balance + amount }, none)

/-- TokenBalance.unfreeze: raises unless amount > 0 and amount is at most the
frozen balance, else frozen_balance -= amount. -/
def TokenBalance.unfreeze (s : TokenBalance) (amount : ℚ) :
    TokenBalance × Option String :=
  if amount ≤ 0 then (s, some "Unfreeze amount must be positive")
  else if amount > s.frozen_balance then (s, some "Insufficient frozen balance")
  else ({ s with frozen_balance := s.frozen_balance - amount }, none)

/-- Operations offered by wallet.models.TokenBalance. -/
inductive TBOp where
  | deposit (amount : ℚ)
  | withdraw (amount : ℚ)
  | freeze (amount : ℚ)
  | unfreeze (amount : ℚ)

/-- Dispatch a TokenBalance operation. -/
def tbStep (op : TBOp) (s : TokenBalance) : TokenBalance × Option String :=
  match op with
  | .deposit a => s.deposit a
  | .withdraw a => s.withdraw a
  | .freeze a => s.freeze a
  | .unfreeze a => s.unfreeze a

/-! ## Balance ledger: squad.models.SquadTokenBalance -/

/-- State of squad.models.SquadTokenBalance: balance columns plus the drop
settings used by can_drop. -/
structure SquadTokenBalance where
  balance : ℚ
  frozen_balance : ℚ
  min_drop_amount : ℚ
  max_drop_amount : ℚ
  drop_enabled : Bool
deriving DecidableEq

/-- SquadTokenBalance.get_available_balance: balance - frozen_balance. -/
def SquadTokenBalance.get_available_balance (s : SquadTokenBalance) : ℚ :=
  s.balance - s.frozen_balance

/-- SquadTokenBalance.deposit: same body as TokenBalance.deposit. -/
def SquadTokenBalance.deposit (s : SquadTokenBalance) (amount : ℚ) :
    SquadTokenBalance × Option String :=
  if amount ≤ 0 then (s, some "Deposit amount must be positive")
  else ({ s with balance := s.balance + amount }, none)

/-- SquadTokenBalance.withdraw: same body as TokenBalance.withdraw. -/
def SquadTokenBalance.withdraw (s : SquadTokenBalance) (amount : ℚ) :
    SquadTokenBalance × Option String :=
  if amount ≤ 0 then (s, some "Withdraw amount must be positive")
  else if amount > s.get_available_balance then (s, some "Insufficient balance")
  else ({ s with balance := s.balance - amount }, none)

/-- SquadTokenBalance.can_drop: drop eligibility check, no mutation. -/
def SquadTokenBalance.can_drop (s : SquadTokenBalance) (amount : ℚ) : Bool :=
  if !s.drop_enabled then false
  else if amount < s.min_drop_amount ∨ amount > s.max_drop_amount then false
  else if amount > s.get_available_balance then false
  else true

/-- Operations offered by squad.models.SquadTokenBalance (it defines no
freeze or unfreeze method). -/
inductive STBOp where
  | deposit (amount : ℚ)
  | withdraw (amount : ℚ)

/-- Dispatch a SquadTokenBalance operation. -/
def stbStep (op : STBOp) (s : SquadTokenBalance) :
    SquadTokenBalance × Option String :=
  match op with
  | .deposit a => s.deposit a
  | .withdraw a => s.withdraw a

/-! ## Balance ledger: squad.models.SquadMemberBalance -/

/-- State of squad.models.SquadMemberBalance: it has a single balance column
and no frozen_balance column. -/
structure SquadMemberBalance where
  balance : ℚ
deriving DecidableEq

/-- SquadMemberBalance.deposit: raises unless amount > 0, else
balance += amount. -/
def SquadMemberBalance.deposit (s : SquadMemberBalance) (amount : ℚ) :
    SquadMemberBalance × Option String :=
  if amount ≤ 0 then (s, some "Deposit amount must be positive")
  else ({ s with balance := s.balance + amount }, none)

/-- SquadMemberBalance.withdraw: raises unless amount > 0 and amount is at
most the raw balance (there is no frozen component), else
balance -= amount. -/
def SquadMemberBalance.withdraw (s : SquadMemberBalance) (amount : ℚ) :
    SquadMemberBalance × Option String :=
  if amount ≤ 0 then (s, some "Withdraw amount must be positive")
  else if amount > s.balance then (s, some "Insufficient balance")
  else ({ s with balance := s.balance - amount }, none)

/-! ## Balance ledger: chat token balance -/

/-- Modelled from the spec: ChatTokenBalance is referenced by the repository
(squad/tests.py imports Chat, ChatWallet, ChatTokenBalance from a superseded
variant of the squad app) but its model code is not under src/. The spec
states the ledger is reused identically for the chat owner kind, with the
same deposit/withdraw/freeze/unfreeze operations as TokenBalance. -/
structure ChatTokenBalance where
  balance : ℚ
  frozen_balance : ℚ
deriving DecidableEq

/-- Modelled from the spec: available balance of a chat token balance. -/
def ChatTokenBalance.get_available_balance (s : ChatTokenBalance) : ℚ :=
  s.balance - s.frozen_balance

/-- Modelled from the spec: chat-wallet deposit, identical to
TokenBalance.deposit. -/
def ChatTokenBalance.deposit (s : ChatTokenBalance) (amount : ℚ) :
    ChatTokenBalance × Option String :=
  if amount ≤ 0 then (s, some "Deposit amount must be positive")
  else ({ s with balance := s.balance + amount }, none)

/-- Modelled from the spec: chat-wallet withdraw, identical to
TokenBalance.withdraw. -/
def ChatTokenBalance.withdraw (s : ChatTokenBalance) (amount : ℚ) :
    ChatTokenBalance × Option String :=
  if amount ≤ 0 then (s, some "Withdraw amount must be positive")
  else if amount > s.get_available_balance then (s, some "Insufficient balance")
  else ({ s with balance := s.balance - amount }, none)

/-- Modelled from the spec: chat-wallet freeze, identical to
TokenBalance.freeze. -/
def ChatTokenBalance.freeze (s : ChatTokenBalance) (amount : ℚ) :
    ChatTokenBalance × Option String :=
  if amount ≤ 0 then (s, some "Freeze amount must be positive")
  else if amount > s.get_available_balance then
    (s, some "Insufficient available balance")
  else ({ s with frozen_balance := s.frozen_balance + amount }, none)

/-- Modelled from the spec: chat-wallet unfreeze, identical to
TokenBalance.unfreeze. -/
def ChatTokenBalance.unfreeze (s : ChatTokenBalance) (amount : ℚ) :
    ChatTokenBalance × Option String :=
  if amount ≤ 0 then (s, some "Unfreeze amount must be positive")
  else if amount > s.frozen_balance then (s, some "Insufficient frozen balance")
  else ({ s with frozen_balance := s.frozen_balance - amount }, none)

/-- Operations of the chat token balance (modelled from the spec). -/
inductive CTBOp where
  | deposit (amount : ℚ)
  | withdraw (amount : ℚ)
  | freeze (amount : ℚ)
  | unfreeze (amount : ℚ)

/-- Dispatch a ChatTokenBalance operation. -/
def ctbStep (op : CTBOp) (s : ChatTokenBalance) :
    ChatTokenBalance × Option String :=
  match op with
  | .deposit a => s.deposit a
  | .withdraw a => s.withdraw a
  | .freeze a => s.freeze a
  | .unfreeze a => s.unfreeze a

/-! ## Ledger invariant and reachability -/

/-- Invariant of a ledger record: the frozen amount is non-negative and at
most the total balance. -/
def BalInv (balance frozen : ℚ) : Prop := 0 ≤ frozen ∧ frozen ≤ balance

/-- States reachable from a TokenBalance state by any sequence of ledger
operations (a failed operation raises before mutating, so it leaves the
state unchanged). -/
inductive TBReach : TokenBalance → TokenBalance → Prop where
  | refl (s : TokenBalance) : TBReach s s
  | next (s t : TokenBalance) (op : TBOp) :
      TBReach s t → TBReach s (tbStep op t).1

/-- States reachable from a SquadTokenBalance state. -/
inductive STBReach : SquadTokenBalance → SquadTokenBalance → Prop where
  | refl (s : SquadTokenBalance) : STBReach s s
  | next (s t : SquadTokenBalance) (op : STBOp) :
      STBReach s t → STBReach s (stbStep op t).1

/-- States reachable from a ChatTokenBalance state. -/
inductive CTBReach : ChatTokenBalance → ChatTokenBalance → Prop where
  | refl (s : ChatTokenBalance) : CTBReach s s
  | next (s t : ChatTokenBalance) (op : CTBOp) :
      CTBReach s t → CTBReach s (ctbStep op t).1

lemma tbStep_inv (op : TBOp) (s : TokenBalance)
    (h : BalInv s.balance s.frozen_balance) :
    BalInv (tbStep op s).1.balance (tbStep op s).1.frozen_balance := by
  obtain ⟨h0, h1⟩ := h
  cases op <;>
    simp only [tbStep, TokenBalance.deposit, TokenBalance.withdraw,
      TokenBalance.freeze, TokenBalance.unfreeze,
      TokenBalance.get_available_balance, BalInv] <;>
    split_ifs <;>
    dsimp only <;>
    exact ⟨by linarith, by linarith⟩

lemma stbStep_inv (op : STBOp) (s : SquadTokenBalance)
    (h : BalInv s.balance s.frozen_balance) :
    BalInv (stbStep op s).1.balance (stbStep op s).1.frozen_balance := by
  obtain ⟨h0, h1⟩ := h
  cases op <;>
    simp only [stbStep, SquadTokenBalance.deposit, SquadTokenBalance.withdraw,
      SquadTokenBalance.get_available_balance, BalInv] <;>
    split_ifs <;>
    dsimp only <;>
    exact ⟨by linarith, by linarith⟩

lemma ctbStep_inv (op : CTBOp) (s : ChatTokenBalance)
    (h : BalInv s.balance s.frozen_balance) :
    BalInv (ctbStep op s).1.balance (ctbStep op s).1.frozen_balance := by
  obtain ⟨h0, h1⟩ := h
  cases op <;>
    simp only [ctbStep, ChatTokenBalance.deposit, ChatTokenBalance.withdraw,
      ChatTokenBalance.freeze, ChatTokenBalance.unfreeze,
      ChatTokenBalance.get_available_balance, BalInv] <;>
    split_ifs <;>
    dsimp only <;>
    exact ⟨by linarith, by linarith⟩

lemma tbReach_inv {s t : TokenBalance} (hr : TBReach s t)
    (h : BalInv s.balance s.frozen_balance) :
    BalInv t.balance t.frozen_balance := by
  induction hr with
  | refl => exact h
  | next t op hr ih => exact tbStep_inv op t ih

lemma stbReach_inv {s t : SquadTokenBalance} (hr : STBReach s t)
    (h : BalInv s.balance s.frozen_balance) :
    BalInv t.balance t.frozen_balance := by
  induction hr with
  | refl => exact h
  | next t op hr ih => exact stbStep_inv op t ih

lemma ctbReach_inv {s t : ChatTokenBalance} (hr : CTBReach s t)
    (h : BalInv s.balance s.frozen_balance) :
    BalInv t.balance t.frozen_balance := by
  induction hr with
  | refl => exact h
  | next t op hr ih => exact ctbStep_inv op t ih

/-- C1: for every balance record kind (user-wallet TokenBalance, chat token
balance, squad-wallet SquadTokenBalance) whose state satisfies
0 ≤ frozen_balance ≤ balance, every ledger operation (in particular every
successful deposit, withdraw, freeze, unfreeze) preserves
0 ≤ frozen_balance ≤ balance, and in every reachable state the available
balance (balance - frozen_balance) is non-negative. -/
theorem C1_ledger_invariant :
    (∀ (op : TBOp) (s : TokenBalance), BalInv s.balance s.frozen_balance →
      BalInv (tbStep op s).1.balance (tbStep op s).1.frozen_balance) ∧
    (∀ (op : CTBOp) (s : ChatTokenBalance), BalInv s.balance s.frozen_balance →
      BalInv (ctbStep op s).1.balance (ctbStep op s).1.frozen_balance) ∧
    (∀ (op : STBOp) (s : SquadTokenBalance), BalInv s.balance s.frozen_balance →
      BalInv (stbStep op s).1.balance (stbStep op s).1.frozen_balance) ∧
    (∀ s t : TokenBalance, TBReach s t → BalInv s.balance s.frozen_balance →
      BalInv t.balance t.frozen_balance ∧ 0 ≤ t.get_available_balance) ∧
    (∀ s t : ChatTokenBalance, CTBReach s t → BalInv s.balance s.frozen_balance →
      BalInv t.balance t.frozen_balance ∧ 0 ≤ t.get_available_balance) ∧
    (∀ s t : SquadTokenBalance, STBReach s t → BalInv s.balance s.frozen_balance →
      BalInv t.balance t.frozen_balance ∧ 0 ≤ t.get_available_balance) := by
  refine ⟨tbStep_inv, ctbStep_inv, stbStep_inv, ?_, ?_, ?_⟩
  · intro s t hr h
    have hi := tbReach_inv hr h
    exact ⟨hi, by simp only [TokenBalance.get_available_balance]; linarith [hi.1, hi.2]⟩
  · intro s t hr h
    have hi := ctbReach_inv hr h
    exact ⟨hi, by simp only [ChatTokenBalance.get_available_balance]; linarith [hi.1, hi.2]⟩
  · intro s t hr h
    have hi := stbReach_inv hr h
    exact ⟨hi, by simp only [SquadTokenBalance.get_available_balance]; linarith [hi.1, hi.2]⟩

/-- Witness for C1 at concrete states: a deposit of 100 on the zero record
keeps the invariant, and after freezing 40 out of 70 the reachable state
still has non-negative available balance. -/
theorem C1_ledger_invariant_witness :
    BalInv (tbStep (TBOp.deposit 100) ⟨0, 0⟩).1.balance
      (tbStep (TBOp.deposit 100) ⟨0, 0⟩).1.frozen_balance ∧
    0 ≤ (tbStep (TBOp.freeze 40) ⟨70, 0⟩).1.get_available_balance := by
  constructor
  · exact C1_ledger_invariant.1 (TBOp.deposit 100) ⟨0, 0⟩ ⟨by norm_num, by norm_num⟩
  · exact (C1_ledger_invariant.2.2.2.1 ⟨70, 0⟩ _
      (TBReach.next _ _ (TBOp.freeze 40) (TBReach.refl _))
      ⟨by norm_num, by norm_num⟩).2

/-- C2: on a record satisfying the ledger invariant, withdraw fails with the
invalid-amount error exactly when the amount is non-positive, fails with the
insufficient-balance error exactly when the amount exceeds the available
balance (balance - frozen_balance, not the raw balance), leaves the record
unchanged on any failure, and on success decreases balance by exactly the
amount while leaving frozen_balance unchanged. -/
theorem C2_withdraw_errors (s : TokenBalance) (a : ℚ)
    (hinv : BalInv s.balance s.frozen_balance) :
    ((s.withdraw a).2 = some "Withdraw amount must be positive" ↔ a ≤ 0) ∧
    ((s.withdraw a).2 = some "Insufficient balance" ↔
      s.get_available_balance < a) ∧
    ((s.withdraw a).2 ≠ none → (s.withdraw a).1 = s) ∧
    ((s.withdraw a).2 = none →
      (s.withdraw a).1.balance = s.balance - a ∧
      (s.withdraw a).1.frozen_balance = s.frozen_balance) := by
  obtain ⟨h0, h1⟩ := hinv
  have havail : 0 ≤ s.get_available_balance := by
    simp only [TokenBalance.get_available_balance]; linarith
  simp only [TokenBalance.withdraw]
  split_ifs with ha hb
  · refine ⟨by simp [ha], ?_, by simp, by simp⟩
    constructor
    · intro h
      exact absurd (Option.some.inj h) (by decide)
    · intro h
      linarith
  · refine ⟨?_, by simp [hb], by simp, by simp⟩
    constructor
    · intro h
      exact absurd (Option.some.inj h) (by decide)
    · intro h
      exact absurd h ha
  · refine ⟨by simp [ha], ?_, by simp, by simp⟩
    constructor
    · intro h
      simp at h
    · intro h
      exact absurd h hb

/-- Witness for C2 at the state after freeze(40) on balance 70: withdrawing
40 fails with the insufficient-balance error although the raw balance 70
would suffice, and withdrawing 0 fails with the invalid-amount error. -/
theorem C2_withdraw_errors_witness :
    ((TokenBalance.freeze ⟨70, 0⟩ 40).1.withdraw 40).2 =
      some "Insufficient balance" ∧
    ((TokenBalance.freeze ⟨70, 0⟩ 40).1.withdraw 0).2 =
      some "Withdraw amount must be positive" := by
  have e : (TokenBalance.freeze ⟨70, 0⟩ 40).1 = ⟨70, 40⟩ := by
    simp only [TokenBalance.freeze, TokenBalance.get_available_balance]
    norm_num
  constructor
  · exact (C2_withdraw_errors (TokenBalance.freeze ⟨70, 0⟩ 40).1 40
      (by rw [e]; exact ⟨by norm_num, by norm_num⟩)).2.1.mpr
      (by rw [e]; simp only [TokenBalance.get_available_balance]; norm_num)
  · exact (C2_withdraw_errors (TokenBalance.freeze ⟨70, 0⟩ 40).1 0
      (by rw [e]; exact ⟨by norm_num, by norm_num⟩)).1.mpr (by norm_num)

/-- C10 counterexample: on the same starting balance 70 with 40 frozen and
the same amount 40, TokenBalance.withdraw fails with the insufficient-balance
error while SquadMemberBalance.withdraw (whose state has no frozen component
and whose sufficiency check uses the raw balance) succeeds. -/
theorem C10_withdraw_divergence :
    ((TokenBalance.mk 70 40).withdraw 40).2 = some "Insufficient balance" ∧
    ((SquadMemberBalance.mk 70).withdraw 40).2 = none ∧
    ((SquadMemberBalance.mk 70).withdraw 40).1.balance = 30 := by
  refine ⟨?_, ?_, ?_⟩ <;>
    simp only [TokenBalance.withdraw, SquadMemberBalance.withdraw,
      TokenBalance.get_available_balance] <;>
    norm_num

/-- C10 amended: SquadMemberBalance has no frozen_balance column; its
withdraw bounds the amount by the raw balance. When the TokenBalance record
has frozen_balance = 0 the two withdraws agree exactly: same positivity
check, same sufficiency bound, same error message and same resulting
balance; in general SquadMemberBalance.withdraw succeeds exactly when
0 < amount ≤ raw balance. -/
theorem C10_withdraw_agreement :
    (∀ b a : ℚ,
      (TokenBalance.withdraw ⟨b, 0⟩ a).2 =
        (SquadMemberBalance.withdraw ⟨b⟩ a).2 ∧
      (TokenBalance.withdraw ⟨b, 0⟩ a).1.balance =
        (SquadMemberBalance.withdraw ⟨b⟩ a).1.balance) ∧
    (∀ b a : ℚ,
      (SquadMemberBalance.withdraw ⟨b⟩ a).2 = none ↔ 0 < a ∧ a ≤ b) := by
  constructor
  · intro b a
    simp only [TokenBalance.withdraw, SquadMemberBalance.withdraw,
      TokenBalance.get_available_balance, sub_zero]
    split_ifs <;> simp
  · intro b a
    simp only [SquadMemberBalance.withdraw]
    split_ifs with ha hb
    · exact iff_of_false (by simp) (by intro h; linarith [h.1])
    · exact iff_of_false (by simp) (by intro h; linarith [h.2])
    · exact iff_of_true rfl ⟨by linarith, by linarith⟩

/-! ## String helpers

Structural embeddings of the Python string primitives the views use
(str.lower, int(), sorted on strings), written over the character list so
that concrete witnesses evaluate inside the kernel. -/

/-- ASCII lower-casing of one character, as str.lower acts on the ASCII
handles the registry stores. -/
def lowerChar (c : Char) : Char :=
  if 65 ≤ c.toNat ∧ c.toNat ≤ 90 then Char.ofNat (c.toNat + 32) else c

/-- Embedding of str.lower. -/
def lowerStr (s : String) : String := ⟨s.data.map lowerChar⟩

/-- Code-point lexicographic order on character lists, the order Python uses
to compare strings. -/
def charsLt : List Char → List Char → Bool
  | [], [] => false
  | [], _ :: _ => true
  | _ :: _, [] => false
  | a :: as, b :: bs => a.toNat < b.toNat || (a == b && charsLt as bs)

/-- Embedding of the Python string order. -/
def strLtB (a b : String) : Bool := charsLt a.data b.data

/-- Accumulate decimal digits; none on a non-digit character. -/
def digitsVal : List Char → Option Nat → Option Nat
  | [], acc => acc
  | c :: cs, acc =>
    if 48 ≤ c.toNat ∧ c.toNat ≤ 57 then
      digitsVal cs (some ((acc.getD 0) * 10 + (c.toNat - 48)))
    else none

/-- Embedding of Python int() on a string: optional sign followed by decimal
digits; none embeds the ValueError int() raises otherwise. -/
def parseIntStr (s : String) : Option Int :=
  match s.data with
  | '-' :: rest => (digitsVal rest none).map (fun n => -(n : Int))
  | l => (digitsVal l none).map (fun n => (n : Int))

/-! ## Identity registry: authentication.models -/

/-- Row of the custom user table (authentication.models.User): the columns
the registration, bot-detection and address-binding code reads and writes.
referred_by is the nullable self-referential foreign key, stored as the
internal id of the referrer. -/
structure UserRec where
  id : Nat
  telegram_id : Int
  username_tg : Option String
  first_name : Option String
  last_name : Option String
  referred_by : Option Nat
  is_bot_suspected : Bool
  ethereum_address : Option String
  base_address : Option String
deriving DecidableEq

/-- The user table: rows plus the next fresh primary key. -/
structure Db where
  users : List UserRec
  next_id : Nat
deriving DecidableEq

/-- Queryset get by primary key, as an Option (none embeds DoesNotExist). -/
def getById (db : Db) (i : Nat) : Option UserRec :=
  db.users.find? (fun u => u.id == i)

/-- Queryset get/filter-first by telegram_id. -/
def findByTelegram (db : Db) (t : Int) : Option UserRec :=
  db.users.find? (fun u => u.telegram_id == t)

/-- Model save(): write the row whose primary key matches the record. -/
def saveUser (db : Db) (u : UserRec) : Db :=
  { db with users := db.users.map (fun v => if v.id == u.id then u else v) }

/-- Primary keys of the user table are pairwise distinct. -/
abbrev NodupIds (db : Db) : Prop := (db.users.map (fun u => u.id)).Nodup

/-- Resolution of the referred_by_id argument in UserManager.create_user:
a falsy id (absent or zero) or an id naming no user resolves to no referrer,
silently. -/
def resolveReferrer (db : Db) (referred_by_id : Option Nat) : Option UserRec :=
  match referred_by_id with
  | some i => if i == 0 then none else getById db i
  | none => none

/-- Handle-uniqueness step of UserManager.create_user: clear the username of
the first other user (different telegram_id) currently holding the given
lower-cased handle. -/
def evictHandle (db : Db) (uname : Option String) (telegram_id : Int) : Db :=
  match uname with
  | some low =>
    match db.users.find?
        (fun v => v.username_tg == some low && v.telegram_id != telegram_id) with
    | some ex => saveUser db { ex with username_tg := none }
    | none => db
  | none => db

/-- UserManager.create_user. Steps, in source order: reject a falsy
telegram_id; resolve the referrer silently; if a username is given, lower-case
it and clear the username of the first other user (different telegram_id)
holding it; get_or_create by telegram_id (creation stores the lowered
username, the names and the referrer; the existing-user path overwrites
username_tg/first_name/last_name with the arguments and saves). Returns
(db, user, created, referrer telegram_id or none); note the last component
is computed from the resolved referrer on both paths. The in-memory
set_unusable_password call touches no modelled column. -/
def create_user (db : Db) (telegram_id : Int)
    (username_tg first_name last_name : Option String)
    (referred_by_id : Option Nat) :
    Except String (Db × UserRec × Bool × Option Int) :=
  if telegram_id == 0 then .error "The Telegram ID must be set"
  else
    let referred_by : Option UserRec := resolveReferrer db referred_by_id
    let uname : Option String := username_tg.map lowerStr
    let db1 : Db := evictHandle db uname telegram_id
    match findByTelegram db1 telegram_id with
    | some u =>
      let u1 : UserRec :=
        { u with username_tg := uname, first_name := first_name,
                 last_name := last_name }
      .ok (saveUser db1 u1, u1, false, referred_by.map (fun r => r.telegram_id))
    | none =>
      let u1 : UserRec :=
        { id := db1.next_id, telegram_id := telegram_id, username_tg := uname,
          first_name := first_name, last_name := last_name,
          referred_by := referred_by.map (fun r => r.id),
          is_bot_suspected := false, ethereum_address := none,
          base_address := none }
      .ok ({ users := db1.users ++ [u1], next_id := db1.next_id + 1 }, u1, true,
        referred_by.map (fun r => r.telegram_id))

/-- authentication.views.detect_bot: if the user of this telegram_id lacks a
username and a truthy referred_by_id is given, fetch the referrer with an
unguarded get (DoesNotExist propagates as an error) and flag when more than
15 of its referred users lack usernames. -/
def detect_bot (db : Db) (telegram_id : Int) (referred_by_id : Option Nat) :
    Except String Bool :=
  let user_without_username :=
    db.users.any (fun u => u.telegram_id == telegram_id && u.username_tg == none)
  if user_without_username then
    match referred_by_id with
    | some i =>
      if i == 0 then .ok false
      else
        match getById db i with
        | none => .error "User matching query does not exist."
        | some r =>
          if 15 < (db.users.filter
              (fun u => u.referred_by == some r.id && u.username_tg == none)).length
          then .ok true else .ok false
    | none => .ok false
  else .ok false

/-- authentication.views.register_user_func_params: create_user inside an
atomic transaction; on the created path run detect_bot (its exception aborts
the transaction and is re-raised), flag the suspected bot and suppress the
referrer id; the existing-user path reports no referrer. -/
def register_user_func_params (db : Db) (tid : Int)
    (uname fn ln : Option String) (referred_by_id : Option Nat) :
    Except String (Db × UserRec × Bool × Option Int) :=
  match create_user db tid uname fn ln referred_by_id with
  | .error e => .error e
  | .ok (db1, user, created, refTid) =>
    if !created then .ok (db1, user, false, none)
    else
      match detect_bot db1 tid referred_by_id with
      | .error e => .error e
      | .ok isBot =>
        if isBot then
          let u1 := { user with is_bot_suspected := true }
          .ok (saveUser db1 u1, u1, true, none)
        else .ok (db1, user, true, refTid)

/-- Db component of a successful registration result. -/
def okDb : Except String (Db × UserRec × Bool × Option Int) → Option Db
  | .ok r => some r.1
  | .error _ => none

/-- User component of a successful registration result. -/
def okUser : Except String (Db × UserRec × Bool × Option Int) → Option UserRec
  | .ok r => some r.2.1
  | .error _ => none

/-- Created flag of a successful registration result. -/
def okCreated : Except String (Db × UserRec × Bool × Option Int) → Option Bool
  | .ok r => some r.2.2.1
  | .error _ => none

/-- Reported referrer telegram id of a successful registration result. -/
def okRef : Except String (Db × UserRec × Bool × Option Int) → Option (Option Int)
  | .ok r => some r.2.2.2
  | .error _ => none

/-! ## Address binding: authentication.models and EVMAddressView -/

/-- UserManager.add_ethereum_address, the path EVMAddressView.post serves:
refuse only when another user row holds the same address; otherwise write the
address unconditionally, overwriting any address the user already has. -/
def UserManager.add_ethereum_address (db : Db) (user : UserRec)
    (address : String) : Db × Bool :=
  match db.users.find?
      (fun v => v.ethereum_address == some address && v.id != user.id) with
  | some _ => (db, false)
  | none => (saveUser db { user with ethereum_address := some address }, true)

/-- UserManager.add_base_address: same shape on the base_address column. -/
def UserManager.add_base_address (db : Db) (user : UserRec)
    (address : String) : Db × Bool :=
  match db.users.find?
      (fun v => v.base_address == some address && v.id != user.id) with
  | some _ => (db, false)
  | none => (saveUser db { user with base_address := some address }, true)

/-- User.add_ethereum_address, the instance method: refuse (no-op) when this
user already has an ethereum address; it performs no cross-user check. -/
def UserRec.add_ethereum_address (db : Db) (user : UserRec)
    (address : String) : Db × Bool :=
  match user.ethereum_address with
  | some _ => (db, false)
  | none => (saveUser db { user with ethereum_address := some address }, true)

/-- User.add_base_address, the instance method. -/
def UserRec.add_base_address (db : Db) (user : UserRec)
    (address : String) : Db × Bool :=
  match user.base_address with
  | some _ => (db, false)
  | none => (saveUser db { user with base_address := some address }, true)

/-! ## Auth gateway: login payload verification and token issuance -/

/-- Last-value lookup of a query field (payloads carry each key once). -/
def getField (data : List (String × String)) (k : String) : Option String :=
  (data.find? (fun kv => kv.1 == k)).map (fun kv => kv.2)

/-- Python tuple order on (key, value) items, used by sorted(data.items()). -/
def pairLeB (a b : String × String) : Bool :=
  strLtB a.1 b.1 || (a.1 == b.1 && (strLtB a.2 b.2 || a.2 == b.2))

/-- Insert into a sorted item list. -/
def insertItem (a : String × String) :
    List (String × String) → List (String × String)
  | [] => [a]
  | b :: rest => if pairLeB a b then a :: b :: rest else b :: insertItem a rest

/-- Embedding of sorted(data.items()). -/
def sortedItems (l : List (String × String)) : List (String × String) :=
  l.foldr insertItem []

/-- Check string of TelegramLoginView.check_auth: every field except hash,
sorted, rendered key=value, joined with newline. -/
def dataCheckString (data : List (String × String)) : String :=
  String.intercalate "\n"
    (((sortedItems data).filter (fun kv => kv.1 != "hash")).map
      (fun kv => kv.1 ++ "=" ++ kv.2))

/-- TelegramLoginView.check_auth, parameterized over the external crypto
collaborators: hmac_sha256_hex key msg is the hex digest of HMAC-SHA256 and
sha256_digest is the raw SHA-256 digest, so the computed hash is
HMAC-SHA256 keyed with SHA256(botToken) over the check string. A missing
hash field is compared against the string None (Django
constant_time_compare forces None to that string). now is time.time() in
whole seconds. The result none embeds the uncaught TypeError/ValueError
Python raises when auth_date is absent or not an integer literal; some
false is a rejection, some true an acceptance. -/
def check_auth (hmac_sha256_hex : List Nat → String → String)
    (sha256_digest : String → List Nat) (botToken : String) (now : Int)
    (data : List (String × String)) : Option Bool :=
  let received : String := (getField data "hash").getD "None"
  let computed : String :=
    hmac_sha256_hex (sha256_digest botToken) (dataCheckString data)
  if computed != received then some false
  else
    match (getField data "auth_date").bind parseIntStr with
    | none => none
    | some ad => if now - ad > 86400 then some false else some true

/-- TelegramLoginView.get: reject unless check_auth accepts; then run
create_user on the payload identity fields and set the jwt_token cookie.
Result some (db, user) means an access token was issued for that user;
none means no token was issued (error response, or the uncaught exception
path). -/
def telegramLoginView (hmac_sha256_hex : List Nat → String → String)
    (sha256_digest : String → List Nat) (botToken : String) (now : Int)
    (db : Db) (data : List (String × String)) : Option (Db × UserRec) :=
  if check_auth hmac_sha256_hex sha256_digest botToken now data == some true then
    match (getField data "id").bind parseIntStr with
    | none => none
    | some tid =>
      match create_user db tid (getField data "username")
          (getField data "first_name") (getField data "last_name") none with
      | .error _ => none
      | .ok (db1, u, _, _) => some (db1, u)
  else none

/-- Response of CustomTokenObtainPairView.post. -/
inductive TokenResp where
  | missingId
  | userNotFound
  | issued (u : UserRec)
deriving DecidableEq

/-- CustomTokenObtainPairView.post: the view declares no authentication
classes and no permission classes; the request body carries only a
telegram_id, and a token pair is generated for the matching user. -/
def customTokenObtainPair (db : Db) (body_telegram_id : Option Int) :
    TokenResp :=
  match body_telegram_id with
  | none => .missingId
  | some t =>
    if t == 0 then .missingId
    else
      match findByTelegram db t with
      | none => .userNotFound
      | some u => .issued u

/-! ## Helper lemmas about the user-table operations -/

lemma find?_append_some {α : Type} {p : α → Bool} {l1 : List α} (l2 : List α)
    {a : α} (h : l1.find? p = some a) : (l1 ++ l2).find? p = some a := by
  induction l1 with
  | nil => simp at h
  | cons x xs ih =>
    by_cases hx : p x = true
    · rw [List.find?_cons_of_pos _ hx] at h
      rw [List.cons_append, List.find?_cons_of_pos _ hx]
      exact h
    · rw [List.find?_cons_of_neg _ hx] at h
      rw [List.cons_append, List.find?_cons_of_neg _ hx]
      exact ih h

lemma replaceRow_id (u v : UserRec) :
    (if v.id == u.id then u else v).id = v.id := by
  by_cases h : (v.id == u.id) = true
  · rw [if_pos h, eq_of_beq h]
  · rw [if_neg h]

lemma saveUser_ids (db : Db) (u : UserRec) :
    (saveUser db u).users.map (fun v => v.id) = db.users.map (fun v => v.id) := by
  simp only [saveUser, List.map_map]
  exact List.map_congr_left (fun v _ => replaceRow_id u v)

lemma nodupIds_saveUser (db : Db) (u : UserRec) (h : NodupIds db) :
    NodupIds (saveUser db u) := by
  simp only [NodupIds, saveUser_ids]
  exact h

lemma nodupIds_eq_of_id_eq {db : Db} (hnd : NodupIds db) {u w : UserRec}
    (hu : u ∈ db.users) (hw : w ∈ db.users) (hid : u.id = w.id) : u = w :=
  List.inj_on_of_nodup_map hnd hu hw hid

lemma find?_id_save (l : List UserRec) (u w : UserRec) (hw : w ∈ l)
    (hid : w.id = u.id) :
    (l.map (fun v => if v.id == u.id then u else v)).find?
      (fun v => v.id == u.id) = some u := by
  induction l with
  | nil => simp at hw
  | cons x xs ih =>
    simp only [List.map_cons]
    by_cases hx : (x.id == u.id) = true
    · rw [if_pos hx]
      exact @List.find?_cons_of_pos UserRec (fun v => v.id == u.id) u
        (xs.map (fun v => if v.id == u.id then u else v)) (beq_self_eq_true u.id)
    · rw [if_neg hx, @List.find?_cons_of_neg UserRec (fun v => v.id == u.id) x
        (xs.map (fun v => if v.id == u.id then u else v)) hx]
      rcases List.mem_cons.mp hw with h1 | h1
      · have hxu : x.id = u.id := by rw [← h1]; exact hid
        exact absurd (by simp [hxu]) hx
      · exact ih h1

lemma getById_saveUser_self (db : Db) (u w : UserRec) (hw : w ∈ db.users)
    (hid : w.id = u.id) : getById (saveUser db u) u.id = some u :=
  find?_id_save db.users u w hw hid

lemma find?_id_save_ne (l : List UserRec) (u : UserRec) (i : Nat)
    (hne : i ≠ u.id) :
    (l.map (fun v => if v.id == u.id then u else v)).find?
      (fun v => v.id == i) = l.find? (fun v => v.id == i) := by
  induction l with
  | nil => rfl
  | cons x xs ih =>
    simp only [List.map_cons]
    by_cases hx : (x.id == u.id) = true
    · have hxid : x.id = u.id := eq_of_beq hx
      have h1 : ¬ (u.id == i) = true := by simp; omega
      have h2 : ¬ (x.id == i) = true := by simp [hxid]; omega
      rw [if_pos hx,
        @List.find?_cons_of_neg UserRec (fun v => v.id == i) u
          (xs.map (fun v => if v.id == u.id then u else v)) h1,
        @List.find?_cons_of_neg UserRec (fun v => v.id == i) x xs h2]
      exact ih
    · rw [if_neg hx]
      by_cases hxi : (x.id == i) = true
      · rw [@List.find?_cons_of_pos UserRec (fun v => v.id == i) x
          (xs.map (fun v => if v.id == u.id then u else v)) hxi,
          @List.find?_cons_of_pos UserRec (fun v => v.id == i) x xs hxi]
      · rw [@List.find?_cons_of_neg UserRec (fun v => v.id == i) x
          (xs.map (fun v => if v.id == u.id then u else v)) hxi,
          @List.find?_cons_of_neg UserRec (fun v => v.id == i) x xs hxi]
        exact ih

lemma getById_saveUser_ne (db : Db) (u : UserRec) (i : Nat) (hne : i ≠ u.id) :
    getById (saveUser db u) i = getById db i :=
  find?_id_save_ne db.users u i hne

lemma find?_tid_save (l : List UserRec) (ev : UserRec) (tid : Int)
    (hev : ev.telegram_id ≠ tid)
    (h : ∀ w ∈ l, w.id = ev.id → w.telegram_id ≠ tid) :
    (l.map (fun v => if v.id == ev.id then ev else v)).find?
      (fun v => v.telegram_id == tid) =
      l.find? (fun v => v.telegram_id == tid) := by
  induction l with
  | nil => rfl
  | cons x xs ih =>
    simp only [List.map_cons]
    have hxs : ∀ w ∈ xs, w.id = ev.id → w.telegram_id ≠ tid :=
      fun w hw => h w (List.mem_cons_of_mem x hw)
    by_cases hx : (x.id == ev.id) = true
    · have hxtid : x.telegram_id ≠ tid :=
        h x (List.mem_cons_self x xs) (eq_of_beq hx)
      have h1 : ¬ (ev.telegram_id == tid) = true := by simp [hev]
      have h2 : ¬ (x.telegram_id == tid) = true := by simp [hxtid]
      rw [if_pos hx,
        @List.find?_cons_of_neg UserRec (fun v => v.telegram_id == tid) ev
          (xs.map (fun v => if v.id == ev.id then ev else v)) h1,
        @List.find?_cons_of_neg UserRec (fun v => v.telegram_id == tid) x xs h2]
      exact ih hxs
    · rw [if_neg hx]
      by_cases hxt : (x.telegram_id == tid) = true
      · rw [@List.find?_cons_of_pos UserRec (fun v => v.telegram_id == tid) x
          (xs.map (fun v => if v.id == ev.id then ev else v)) hxt,
          @List.find?_cons_of_pos UserRec (fun v => v.telegram_id == tid) x xs hxt]
      · rw [@List.find?_cons_of_neg UserRec (fun v => v.telegram_id == tid) x
          (xs.map (fun v => if v.id == ev.id then ev else v)) hxt,
          @List.find?_cons_of_neg UserRec (fun v => v.telegram_id == tid) x xs hxt]
        exact ih hxs

lemma findByTelegram_saveUser (db : Db) (ev : UserRec) (tid : Int)
    (hev : ev.telegram_id ≠ tid)
    (h : ∀ w ∈ db.users, w.id = ev.id → w.telegram_id ≠ tid) :
    findByTelegram (saveUser db ev) tid = findByTelegram db tid :=
  find?_tid_save db.users ev tid hev h

lemma mem_saveUser_replaced (db : Db) (u w : UserRec) (hw : w ∈ db.users)
    (hid : w.id = u.id) : u ∈ (saveUser db u).users := by
  simp only [saveUser]
  have he : (fun v => if v.id == u.id then u else v) w = u := by simp [hid]
  exact List.mem_map.mpr ⟨w, hw, he⟩

lemma nodupIds_evictHandle (db : Db) (un : Option String) (tid : Int)
    (hnd : NodupIds db) : NodupIds (evictHandle db un tid) := by
  unfold evictHandle
  cases un with
  | none => exact hnd
  | some low =>
    dsimp only
    cases hex : db.users.find?
        (fun v => v.username_tg == some low && v.telegram_id != tid) with
    | none => exact hnd
    | some ex => exact nodupIds_saveUser _ _ hnd

lemma findByTelegram_evictHandle (db : Db) (un : Option String) (tid : Int)
    (hnd : NodupIds db) :
    findByTelegram (evictHandle db un tid) tid = findByTelegram db tid := by
  unfold evictHandle
  cases un with
  | none => rfl
  | some low =>
    dsimp only
    cases hex : db.users.find?
        (fun v => v.username_tg == some low && v.telegram_id != tid) with
    | none => rfl
    | some ex =>
      have hmem : ex ∈ db.users := List.mem_of_find?_eq_some hex
      have hpred := List.find?_some hex
      have hextid : ex.telegram_id ≠ tid := by
        simp only [Bool.and_eq_true, bne_iff_ne] at hpred
        exact hpred.2
      apply findByTelegram_saveUser
      · exact hextid
      · intro w hw hid
        have hwex : w = ex := nodupIds_eq_of_id_eq hnd hw hmem hid
        rw [hwex]
        exact hextid

/-- C3: the widget login check accepts a payload exactly when the provided
hash equals the hex HMAC-SHA256 — keyed with SHA256(botToken) — of the check
string built from all fields except hash, sorted by field name, rendered as
key=value and joined with newline, and the payload age now - auth_date is at
most 86400 seconds; so an age of exactly 86400 seconds is accepted and 86401
is rejected. -/
theorem C3_check_auth_accepts_iff
    (hm : List Nat → String → String) (sh : String → List Nat)
    (botToken : String) (now : Int) (data : List (String × String))
    (h : String) (s : String) (ad : Int)
    (hh : getField data "hash" = some h)
    (ha : getField data "auth_date" = some s)
    (hp : parseIntStr s = some ad) :
    check_auth hm sh botToken now data = some true ↔
      (hm (sh botToken) (dataCheckString data) = h ∧ now - ad ≤ 86400) := by
  simp only [check_auth, hh, ha, Option.getD_some, Option.some_bind, hp]
  by_cases hc : hm (sh botToken) (dataCheckString data) = h
  · rw [hc]
    rw [if_neg (by simp)]
    split_ifs with hd
    · exact iff_of_false (by simp) (fun hco => absurd hco.2 (by omega))
    · exact iff_of_true rfl ⟨rfl, by omega⟩
  · rw [if_pos (by simp [hc])]
    exact iff_of_false (by simp) (fun hco => hc hco.1)

/-- Witness for C3: with a constant mac, a payload whose age is exactly
86400 seconds is accepted, and the same payload one second later is
rejected. -/
theorem C3_check_auth_accepts_iff_witness :
    check_auth (fun _ _ => "m") (fun _ => []) "token" 172700
      [("auth_date", "86300"), ("hash", "m"), ("id", "1")] = some true ∧
    check_auth (fun _ _ => "m") (fun _ => []) "token" 172701
      [("auth_date", "86300"), ("hash", "m"), ("id", "1")] ≠ some true := by
  constructor
  · exact (C3_check_auth_accepts_iff (fun _ _ => "m") (fun _ => []) "token"
      172700 [("auth_date", "86300"), ("hash", "m"), ("id", "1")] "m" "86300"
      86300 (by decide) (by decide) (by decide)).mpr ⟨rfl, by decide⟩
  · intro hacc
    have hq := (C3_check_auth_accepts_iff (fun _ _ => "m") (fun _ => []) "token"
      172701 [("auth_date", "86300"), ("hash", "m"), ("id", "1")] "m" "86300"
      86300 (by decide) (by decide) (by decide)).mp hacc
    exact absurd hq.2 (by decide)

/-- Sample registered user for the token-issuance claim. -/
def u42 : UserRec :=
  { id := 1, telegram_id := 42, username_tg := none, first_name := none,
    last_name := none, referred_by := none, is_bot_suspected := false,
    ethereum_address := none, base_address := none }

/-- User table holding only u42. -/
def dbC4 : Db := { users := [u42], next_id := 2 }

/-- C4 counterexample: CustomTokenObtainPairView.post issues a token pair for
the existing user from a request that carries nothing but the public
telegram_id 42 — no HMAC-verified payload and no password — so a
credential-free request path yielding a valid bearer token exists outside
the verified login flows. -/
theorem C4_credential_free_token :
    customTokenObtainPair dbC4 (some 42) = TokenResp.issued u42 := by decide

/-- C4 amended: the widget login issues a token only when check_auth accepts
the payload, but CustomTokenObtainPairView issues a valid token pair for any
existing user from the bare telegram_id with no credentials, so token
issuance is not confined to the HMAC-verified login flows. -/
theorem C4_token_issuance_paths (hm : List Nat → String → String)
    (sh : String → List Nat) (botToken : String) (now : Int) (db : Db)
    (data : List (String × String)) (db2 : Db) (w : UserRec) (t : Int)
    (u : UserRec) :
    (telegramLoginView hm sh botToken now db data = some (db2, w) →
      check_auth hm sh botToken now data = some true) ∧
    (t ≠ 0 → findByTelegram db t = some u →
      customTokenObtainPair db (some t) = TokenResp.issued u) := by
  constructor
  · intro hres
    by_cases hc : check_auth hm sh botToken now data = some true
    · exact hc
    · exfalso
      simp only [telegramLoginView] at hres
      rw [if_neg (by simp [hc])] at hres
      exact Option.noConfusion hres
  · intro ht hu
    simp only [customTokenObtainPair]
    rw [if_neg (by simp [ht]), hu]

/-- Temporary user created by the sample widget login. -/
def w7 : UserRec :=
  { id := 1, telegram_id := 7, username_tg := none, first_name := none,
    last_name := none, referred_by := none, is_bot_suspected := false,
    ethereum_address := none, base_address := none }

/-- Witness for C4: a concrete widget login that did issue a token passed
check_auth, and the credential-free endpoint issues for user 42. -/
theorem C4_token_issuance_paths_witness :
    check_auth (fun _ _ => "m") (fun _ => []) "token" 0
      [("auth_date", "0"), ("hash", "m"), ("id", "7")] = some true ∧
    customTokenObtainPair dbC4 (some 42) = TokenResp.issued u42 := by
  constructor
  · exact (C4_token_issuance_paths (fun _ _ => "m") (fun _ => []) "token" 0
      { users := [], next_id := 1 } [("auth_date", "0"), ("hash", "m"), ("id", "7")]
      { users := [w7], next_id := 2 } w7 1 w7).1 (by decide)
  · exact (C4_token_issuance_paths (fun _ _ => "m") (fun _ => []) "token" 0
      dbC4 [] dbC4 u42 42 u42).2 (by decide) (by decide)

/-- Sample user holding telegram_id 100 for the registration claims. -/
def uA : UserRec :=
  { id := 1, telegram_id := 100, username_tg := none, first_name := none,
    last_name := none, referred_by := none, is_bot_suspected := false,
    ethereum_address := none, base_address := none }

/-- Sample user holding telegram_id 200. -/
def uB : UserRec :=
  { id := 2, telegram_id := 200, username_tg := none, first_name := none,
    last_name := none, referred_by := none, is_bot_suspected := false,
    ethereum_address := none, base_address := none }

/-- User table holding uA and uB. -/
def dbC5 : Db := { users := [uA, uB], next_id := 3 }

/-- C5 counterexample: user 200 already exists, yet
create_user(200, referred_by_id = 1) with a referrer argument resolving to
the real user 100 returns created = false together with the referrer
external id 100 as the third component — not an absent value. -/
theorem C5_existing_reports_referrer :
    okCreated (create_user dbC5 200 none none none (some 1)) = some false ∧
    okRef (create_user dbC5 200 none none none (some 1)) = some (some 100) := by
  decide

/-- C5 amended: on the existing-user path create_user returns the existing
user with created = false and with username_tg/first_name/last_name
overwritten from the arguments; the stored referrer of the existing user is
never changed; the third component is the resolved referrer's external id
(so it is absent only when the argument resolves to no user), and the
register_user_func_params wrapper is what reports an absent referrer on this
path. -/
theorem C5_existing_user_behavior (db : Db) (tid : Int)
    (uname fn ln : Option String) (rid : Option Nat) (u : UserRec)
    (hnd : NodupIds db) (htid : tid ≠ 0)
    (hu : findByTelegram db tid = some u) :
    okCreated (create_user db tid uname fn ln rid) = some false ∧
    okUser (create_user db tid uname fn ln rid) =
      some { u with username_tg := uname.map lowerStr, first_name := fn,
                    last_name := ln } ∧
    (okUser (create_user db tid uname fn ln rid)).map
      (fun wr => wr.referred_by) = some u.referred_by ∧
    okRef (create_user db tid uname fn ln rid) =
      some ((resolveReferrer db rid).map (fun r => r.telegram_id)) ∧
    okRef (register_user_func_params db tid uname fn ln rid) = some none := by
  have hft : findByTelegram (evictHandle db (uname.map lowerStr) tid) tid =
      some u :=
    (findByTelegram_evictHandle db (uname.map lowerStr) tid hnd).trans hu
  have e1 : create_user db tid uname fn ln rid = .ok
      (saveUser (evictHandle db (uname.map lowerStr) tid)
        { u with username_tg := uname.map lowerStr, first_name := fn,
                 last_name := ln },
       { u with username_tg := uname.map lowerStr, first_name := fn,
                last_name := ln },
       false, (resolveReferrer db rid).map (fun r => r.telegram_id)) := by
    simp only [create_user]
    rw [if_neg (by simp [htid]), hft]
  refine ⟨?_, ?_, ?_, ?_, ?_⟩
  · rw [e1]; rfl
  · rw [e1]; rfl
  · rw [e1]; rfl
  · rw [e1]; rfl
  · simp only [register_user_func_params]
    rw [e1]
    rfl

/-- Witness for C5 at the two-user table: registering existing user 200 with
a handle and a resolving referrer keeps created = false, reports referrer
100 from create_user, and reports an absent referrer from the wrapper. -/
theorem C5_existing_user_behavior_witness :
    okCreated (create_user dbC5 200 (some "Zed") none none (some 1)) =
      some false ∧
    okRef (create_user dbC5 200 (some "Zed") none none (some 1)) =
      some (some 100) ∧
    okRef (register_user_func_params dbC5 200 (some "Zed") none none (some 1)) =
      some none := by
  have h := C5_existing_user_behavior dbC5 200 (some "Zed") none none (some 1)
    uB (by decide) (by decide) (by decide)
  refine ⟨h.1, ?_, h.2.2.2.2⟩
  rw [h.2.2.2.1]
  decide

/-- Sample user holding the handle bob. -/
def uBob : UserRec :=
  { id := 1, telegram_id := 100, username_tg := some "bob", first_name := none,
    last_name := none, referred_by := none, is_bot_suspected := false,
    ethereum_address := none, base_address := none }

/-- User table holding only uBob. -/
def dbC6 : Db := { users := [uBob], next_id := 2 }

/-- C6: when create_user is called with a handle, the handle is lower-cased,
and if another user with a different external id currently holds it, that
user's handle is cleared before the handle is assigned to the registering
user; the registration succeeds rather than rejecting the collision, and a
subsequent fetch of the evicted user shows no handle. -/
theorem C6_handle_eviction (db : Db) (tid : Int) (uname : String)
    (fn ln : Option String) (rid : Option Nat) (v : UserRec)
    (hnd : NodupIds db) (htid : tid ≠ 0)
    (hv : db.users.find? (fun w => w.username_tg == some (lowerStr uname) &&
      w.telegram_id != tid) = some v) :
    (okCreated (create_user db tid (some uname) fn ln rid)).isSome = true ∧
    (okUser (create_user db tid (some uname) fn ln rid)).map
      (fun w => w.username_tg) = some (some (lowerStr uname)) ∧
    (okDb (create_user db tid (some uname) fn ln rid)).map
      (fun d => getById d v.id) =
      some (some { v with username_tg := none }) := by
  have hvmem : v ∈ db.users := List.mem_of_find?_eq_some hv
  have hvpred := List.find?_some hv
  have hvtid : v.telegram_id ≠ tid := by
    simp only [Bool.and_eq_true, bne_iff_ne] at hvpred
    exact hvpred.2
  have hdb1 : evictHandle db (Option.map lowerStr (some uname)) tid =
      saveUser db { v with username_tg := none } := by
    unfold evictHandle
    dsimp only [Option.map_some']
    rw [hv]
  have hgv : getById (saveUser db { v with username_tg := none }) v.id =
      some { v with username_tg := none } :=
    getById_saveUser_self db { v with username_tg := none } v hvmem rfl
  cases hft : findByTelegram (saveUser db { v with username_tg := none }) tid with
  | some u =>
    have hndb1 : NodupIds (saveUser db { v with username_tg := none }) :=
      nodupIds_saveUser _ _ hnd
    have humem : u ∈ (saveUser db { v with username_tg := none }).users :=
      List.mem_of_find?_eq_some hft
    have hutid : u.telegram_id = tid := by
      have hpt := List.find?_some hft
      simpa using hpt
    have hevmem : { v with username_tg := none } ∈
        (saveUser db { v with username_tg := none }).users :=
      mem_saveUser_replaced db { v with username_tg := none } v hvmem rfl
    have hid_ne : v.id ≠ u.id := by
      intro he
      have hue : u = { v with username_tg := none } :=
        nodupIds_eq_of_id_eq hndb1 humem hevmem (by simpa using he.symm)
      rw [hue] at hutid
      exact hvtid (by simpa using hutid)
    have e1 : create_user db tid (some uname) fn ln rid = .ok
        (saveUser (saveUser db { v with username_tg := none })
          { u with username_tg := some (lowerStr uname), first_name := fn,
                   last_name := ln },
         { u with username_tg := some (lowerStr uname), first_name := fn,
                  last_name := ln },
         false,
         (resolveReferrer db rid).map (fun r => r.telegram_id)) := by
      simp only [create_user]
      rw [if_neg (by simp [htid]), hdb1, hft]
      rfl
    refine ⟨?_, ?_, ?_⟩
    · rw [e1]; rfl
    · rw [e1]; rfl
    · rw [e1]
      simp only [okDb, Option.map_some']
      rw [getById_saveUser_ne (saveUser db { v with username_tg := none })
        { u with username_tg := some (lowerStr uname), first_name := fn,
                 last_name := ln } v.id hid_ne, hgv]
  | none =>
    have e1 : create_user db tid (some uname) fn ln rid = .ok
        ({ users := (saveUser db { v with username_tg := none }).users ++
            [{ id := db.next_id, telegram_id := tid,
               username_tg := some (lowerStr uname), first_name := fn,
               last_name := ln,
               referred_by := (resolveReferrer db rid).map (fun r => r.id),
               is_bot_suspected := false, ethereum_address := none,
               base_address := none }],
           next_id := db.next_id + 1 },
         { id := db.next_id, telegram_id := tid,
           username_tg := some (lowerStr uname), first_name := fn,
           last_name := ln,
           referred_by := (resolveReferrer db rid).map (fun r => r.id),
           is_bot_suspected := false, ethereum_address := none,
           base_address := none }, true,
         (resolveReferrer db rid).map (fun r => r.telegram_id)) := by
      simp only [create_user]
      rw [if_neg (by simp [htid]), hdb1, hft]
      rfl
    refine ⟨?_, ?_, ?_⟩
    · rw [e1]; rfl
    · rw [e1]; rfl
    · rw [e1]
      simp only [okDb, Option.map_some']
      exact congrArg some (find?_append_some _ hgv)

/-- Witness for C6: user 100 holds bob; registering external id 99 with
handle BoB succeeds, stores the lower-cased handle, and the fetched user 100
then shows no handle. -/
theorem C6_handle_eviction_witness :
    (okUser (create_user dbC6 99 (some "BoB") none none none)).map
      (fun w => w.username_tg) = some (some "bob") ∧
    (okDb (create_user dbC6 99 (some "BoB") none none none)).map
      (fun d => getById d 1) =
      some (some { uBob with username_tg := none }) := by
  have h := C6_handle_eviction dbC6 99 "BoB" none none none uBob (by decide)
    (by decide) (by decide)
  refine ⟨?_, ?_⟩
  · rw [h.2.1]
    decide
  · exact h.2.2

lemma detect_bot_after_create (db2 : Db) (tid : Int) (i : Nat) (r : UserRec)
    (hi : i ≠ 0)
    (hany : db2.users.any
      (fun w => w.telegram_id == tid && w.username_tg == none) = true)
    (hget : getById db2 i = some r) :
    detect_bot db2 tid (some i) = .ok (decide (15 <
      (db2.users.filter (fun w => w.referred_by == some r.id &&
        w.username_tg == none)).length)) := by
  simp only [detect_bot, hget]
  rw [if_pos hany, if_neg (by simp [hi])]
  split_ifs with hb
  · simp [hb]
  · simp [hb]

/-- C7: on first creation with no handle and a referrer argument resolving
to user r, registration succeeds with created = true; counting r's
handle-less referred users after the creation (the pre-existing ones plus
the newly created user), the new user is flagged bot_suspected and the
referrer is reported absent exactly when that count exceeds 15; with 15 or
fewer the user is not flagged and r's real external id is reported. -/
theorem C7_bot_detection (db : Db) (tid : Int) (fn ln : Option String)
    (i : Nat) (r : UserRec) (htid : tid ≠ 0) (hi : i ≠ 0)
    (hnew : findByTelegram db tid = none) (hr : getById db i = some r) :
    okCreated (register_user_func_params db tid none fn ln (some i)) =
      some true ∧
    (okUser (register_user_func_params db tid none fn ln (some i))).map
      (fun w => w.is_bot_suspected) =
      some (decide (15 < (db.users.filter (fun w =>
        w.referred_by == some r.id && w.username_tg == none)).length + 1)) ∧
    okRef (register_user_func_params db tid none fn ln (some i)) =
      some (if 15 < (db.users.filter (fun w =>
          w.referred_by == some r.id && w.username_tg == none)).length + 1
        then none else some r.telegram_id) := by
  have hres : resolveReferrer db (some i) = some r := by
    simp only [resolveReferrer]
    rw [if_neg (by simp [hi])]
    exact hr
  obtain ⟨nu, hnu⟩ : ∃ nu : UserRec, nu =
      { id := db.next_id, telegram_id := tid, username_tg := none,
        first_name := fn, last_name := ln, referred_by := some r.id,
        is_bot_suspected := false, ethereum_address := none,
        base_address := none } := ⟨_, rfl⟩
  obtain ⟨db2, hdb2⟩ : ∃ d : Db, d =
      { users := db.users ++ [nu], next_id := db.next_id + 1 } := ⟨_, rfl⟩
  have e1 : create_user db tid none fn ln (some i) =
      .ok (db2, nu, true, some r.telegram_id) := by
    rw [hdb2, hnu]
    simp only [create_user, hres, evictHandle, Option.map_none',
      Option.map_some', hnew]
    rw [if_neg (by simp [htid])]
  have hany : db2.users.any
      (fun w => w.telegram_id == tid && w.username_tg == none) = true := by
    rw [hdb2]
    simp [List.any_append, hnu]
  have hget : getById db2 i = some r := by
    rw [hdb2]
    exact find?_append_some _ hr
  have e2 := detect_bot_after_create db2 tid i r hi hany hget
  have hcnt : (db2.users.filter (fun w => w.referred_by == some r.id &&
      w.username_tg == none)).length =
      (db.users.filter (fun w => w.referred_by == some r.id &&
        w.username_tg == none)).length + 1 := by
    rw [hdb2]
    simp [List.filter_append, hnu]
  rw [hcnt] at e2
  by_cases hb : 15 < (db.users.filter (fun w => w.referred_by == some r.id &&
      w.username_tg == none)).length + 1
  · refine ⟨?_, ?_, ?_⟩ <;>
      simp only [register_user_func_params, e1, e2] <;>
      simp [okCreated, okUser, okRef, hb, hnu]
  · refine ⟨?_, ?_, ?_⟩ <;>
      simp only [register_user_func_params, e1, e2] <;>
      simp [okCreated, okUser, okRef, hb, hnu]

/-- Referrer user for the bot-detection witness. -/
def uR : UserRec :=
  { id := 1, telegram_id := 500, username_tg := some "ref", first_name := none,
    last_name := none, referred_by := none, is_bot_suspected := false,
    ethereum_address := none, base_address := none }

/-- User table holding only the referrer. -/
def dbC7 : Db := { users := [uR], next_id := 2 }

/-- User table where the referrer already has 15 handle-less referred
users, so the next handle-less referred user is the 16th. -/
def dbC7big : Db :=
  { users := uR :: (List.range 15).map (fun k =>
      { id := k + 2, telegram_id := (600 + k : Int), username_tg := none,
        first_name := none, last_name := none, referred_by := some 1,
        is_bot_suspected := false, ethereum_address := none,
        base_address := none }),
    next_id := 17 }

/-- Witness for C7: with no prior referred users the new user is not flagged
and the referrer external id 500 is reported; with 15 prior handle-less
referred users the 16th is flagged and the referrer is reported absent. -/
theorem C7_bot_detection_witness :
    (okCreated (register_user_func_params dbC7 900 none none none (some 1)) =
      some true ∧
     (okUser (register_user_func_params dbC7 900 none none none (some 1))).map
      (fun w => w.is_bot_suspected) = some false ∧
     okRef (register_user_func_params dbC7 900 none none none (some 1)) =
      some (some 500)) ∧
    ((okUser (register_user_func_params dbC7big 900 none none none
        (some 1))).map (fun w => w.is_bot_suspected) = some true ∧
     okRef (register_user_func_params dbC7big 900 none none none (some 1)) =
      some none) := by
  have h1 := C7_bot_detection dbC7 900 none none 1 uR (by decide) (by decide)
    (by decide) (by decide)
  have h2 := C7_bot_detection dbC7big 900 none none 1 uR (by decide)
    (by decide) (by decide) (by decide)
  refine ⟨⟨h1.1, ?_, ?_⟩, ?_, ?_⟩
  · rw [h1.2.1]
    decide
  · rw [h1.2.2]
    decide
  · rw [h2.2.1]
    decide
  · rw [h2.2.2]
    decide

/-- Empty user table. -/
def dbC8 : Db := { users := [], next_id := 1 }

/-- C8: create_user itself silently tolerates a referred_by_id naming no
user (the new user is created with no referrer), but the enclosing
register_user_func_params then crashes: for a new user created without a
handle, detect_bot fetches the missing referrer with an unguarded get and
the DoesNotExist error aborts the registration instead of completing it. -/
theorem C8_missing_referrer_raises :
    okCreated (create_user dbC8 42 none none none (some 999)) = some true ∧
    (okUser (create_user dbC8 42 none none none (some 999))).map
      (fun w => w.referred_by) = some none ∧
    register_user_func_params dbC8 42 none none none (some 999) =
      .error "User matching query does not exist." := by
  refine ⟨by decide, by decide, ?_⟩
  rfl

/-- User already holding an ethereum address. -/
def uC9 : UserRec :=
  { id := 1, telegram_id := 100, username_tg := none, first_name := none,
    last_name := none, referred_by := none, is_bot_suspected := false,
    ethereum_address := some "0xaaa", base_address := none }

/-- User table holding only uC9. -/
def dbC9 : Db := { users := [uC9], next_id := 2 }

/-- C9 counterexample: the manager path served by the address endpoint does
not fail when the caller already has an address for the chain: user 1
already holds an ethereum address, yet add_ethereum_address returns true and
overwrites the stored address. -/
theorem C9_manager_overwrites :
    (UserManager.add_ethereum_address dbC9 uC9 "0xbbb").2 = true ∧
    (getById (UserManager.add_ethereum_address dbC9 uC9 "0xbbb").1 1).map
      (fun w => w.ethereum_address) = some (some "0xbbb") := by
  decide

/-- C9 amended: the manager path (used by EVMAddressView) fails with false
exactly when another user row holds the same address, and otherwise binds —
overwriting any address the caller already has; the refuse-if-already-bound
no-op exists only on the instance-method path, which in turn performs no
cross-user check. -/
theorem C9_address_binding_paths (db : Db) (user : UserRec) (addr : String) :
    ((db.users.find? (fun v => v.ethereum_address == some addr &&
        v.id != user.id)).isSome = true →
      UserManager.add_ethereum_address db user addr = (db, false)) ∧
    ((db.users.find? (fun v => v.ethereum_address == some addr &&
        v.id != user.id)).isSome = false →
      UserManager.add_ethereum_address db user addr =
        (saveUser db { user with ethereum_address := some addr }, true)) ∧
    (∀ x, user.ethereum_address = some x →
      UserRec.add_ethereum_address db user addr = (db, false)) ∧
    (user.ethereum_address = none →
      UserRec.add_ethereum_address db user addr =
        (saveUser db { user with ethereum_address := some addr }, true)) := by
  refine ⟨?_, ?_, ?_, ?_⟩
  · intro h
    simp only [UserManager.add_ethereum_address]
    cases hf : db.users.find? (fun v => v.ethereum_address == some addr &&
        v.id != user.id) with
    | none => rw [hf] at h; simp at h
    | some w => rfl
  · intro h
    simp only [UserManager.add_ethereum_address]
    cases hf : db.users.find? (fun v => v.ethereum_address == some addr &&
        v.id != user.id) with
    | none => rfl
    | some w => rw [hf] at h; simp at h
  · intro x hx
    simp only [UserRec.add_ethereum_address, hx]
  · intro hx
    simp only [UserRec.add_ethereum_address, hx]

/-- Witness for C9: user 1 already holds 0xaaa, so binding the same address
for user 2 fails; the instance path refuses a second address for user 1 as
a no-op. -/
theorem C9_address_binding_paths_witness :
    UserManager.add_ethereum_address
      { users := [uC9, uB], next_id := 3 } uB "0xaaa" =
      ({ users := [uC9, uB], next_id := 3 }, false) ∧
    UserRec.add_ethereum_address dbC9 uC9 "0xbbb" = (dbC9, false) := by
  constructor
  · exact (C9_address_binding_paths { users := [uC9, uB], next_id := 3 }
      uB "0xaaa").1 (by decide)
  · exact (C9_address_binding_paths dbC9 uC9 "0xbbb").2.2.1 "0xaaa" (by decide)
